import Mathlib

/-!
Verification of `prepare_visual_metadata.py` (COS30081 Group 9 ML project).

The script is a single batch transform (`load_and_map_data`): it parses a
semicolon-delimited species list into two lookup dictionaries, loads a
space-delimited training manifest, enriches each manifest row with the formal
species name, a domain tag derived from the file path, and two visual traits
obtained by remapping clean-name-keyed JSON dictionaries to formal-name keys,
then encodes three categorical label columns and writes the table out.

The embedding below models Python dictionaries as association lists with
insert-overwrite semantics, the file system as `Option` file contents
(`none` = missing file, raising `FileNotFoundError`), pandas `Series.map`
as an `Option`-valued lookup (missing key ↦ NaN ↦ `none`), and
the categorical integer encoding of line 83–85 as the index into the
lexicographically sorted list of distinct non-null column values, with
null ↦ -1.
Python string primitives (`strip`, `split`, `int(...)`, `replace`, `in`)
are modelled by structurally recursive functions on the character list of
the string, so that every definition evaluates inside the kernel.
-/

namespace PrepareVisualMetadata

/-- A Python `dict` modelled as an association list (insertion order kept,
keys unique by construction of `dictInsert`). -/
abbrev Dict (α β : Type) := List (α × β)

/-- Lookup in a `Dict`: `d[k]` / `d.get(k)`; `none` models a missing key. -/
def dictGet [BEq α] (d : Dict α β) (k : α) : Option β :=
  (d.find? (fun p => p.1 == k)).map (·.2)

/-- The keys of a `Dict`, in insertion order. -/
def dictKeys (d : Dict α β) : List α := d.map (·.1)

/-- Python `d[k] = v`: overwrite the value if `k` is already a key,
otherwise append the binding at the end. -/
def dictInsert [BEq α] (d : Dict α β) (k : α) (v : β) : Dict α β :=
  if d.any (fun p => p.1 == k) then
    d.map (fun p => if p.1 == k then (k, v) else p)
  else d ++ [(k, v)]

/-- Python `s.strip()` on the character list: drop whitespace from both
ends. -/
def trimChars (cs : List Char) : List Char :=
  ((cs.dropWhile Char.isWhitespace).reverse.dropWhile Char.isWhitespace).reverse

/-- Python `s.strip()`. -/
def pyStrip (s : String) : String := ⟨trimChars s.data⟩

/-- Value of a list of decimal digits. -/
def digitsVal (ds : List Char) : Nat :=
  ds.foldl (fun n c => 10 * n + (c.toNat - 48)) 0

/-- Python `int(s)`: strip surrounding whitespace, then parse an optionally
signed decimal numeral; `none` models the `ValueError` on failure. -/
def pyInt? (s : String) : Option Int :=
  match trimChars s.data with
  | [] => none
  | c :: ds =>
    if c = '-' then
      if ds ≠ [] ∧ ds.all Char.isDigit then some (-(digitsVal ds : Int)) else none
    else if c = '+' then
      if ds ≠ [] ∧ ds.all Char.isDigit then some (digitsVal ds : Int) else none
    else if (c :: ds).all Char.isDigit then some (digitsVal (c :: ds) : Int)
    else none

/-- Python `s.split(';', 1)` followed by unpacking into two variables:
split at the first `';'`; `none` models the `ValueError` raised when the
string contains no `';'` (a one-element list cannot unpack into two names). -/
def splitSemi (s : String) : Option (String × String) :=
  if s.data.contains ';' then
    some (⟨s.data.takeWhile (fun c => c != ';')⟩,
      ⟨(s.data.dropWhile (fun c => c != ';')).tail⟩)
  else none

/-- Helper for Python `s.split()` (no separator): accumulate the current
token (in reverse) and flush it at whitespace, dropping empty tokens. -/
def tokensAux : List Char → List Char → List (List Char)
  | [], acc => if acc.isEmpty then [] else [acc.reverse]
  | c :: cs, acc =>
    if c.isWhitespace then
      if acc.isEmpty then tokensAux cs [] else acc.reverse :: tokensAux cs []
    else tokensAux cs (c :: acc)

/-- `" ".join(formal_name.split()[:2])`: the first two whitespace-separated
tokens of the formal name, joined by a single space. -/
def cleanName (formal : String) : String :=
  ⟨List.intercalate [' '] ((tokensAux formal.data []).take 2)⟩

/-- One iteration of the species-list loop body (lines 30–40 of the script)
on a non-blank line: strip, split at the first `';'`, parse the classid as
an integer, strip the formal name.  `none` models an unhandled
`ValueError`. -/
def parseSpeciesLine (line : String) : Option (Int × String) :=
  match splitSemi (pyStrip line) with
  | none => none
  | some (classidStr, formalFull) =>
    match pyInt? classidStr with
    | none => none
    | some classid => some (classid, pyStrip formalFull)

/-- The species-list loop (lines 28–40): blank lines are skipped; each other
line is parsed and inserted into both dictionaries
(`classid_to_formal_name` and `clean_name_to_formal_name`); a line that
fails to parse raises an unhandled `ValueError`, modelled as `.error`. -/
def parseSpeciesList :
    List String → Dict Int String → Dict String String →
      Except String (Dict Int String × Dict String String)
  | [], d1, d2 => .ok (d1, d2)
  | line :: rest, d1, d2 =>
    if (pyStrip line).data.isEmpty then parseSpeciesList rest d1 d2
    else
      match parseSpeciesLine line with
      | none => .error "ValueError"
      | some (classid, formal) =>
        parseSpeciesList rest (dictInsert d1 classid formal)
          (dictInsert d2 (cleanName formal) formal)

/-- A row of the training manifest `list/train.txt` as loaded by
`pd.read_csv(sep=' ', header=None, names=['filepath', 'classid'])`. -/
structure TrainRow where
  filepath : String
  classid : Int
deriving DecidableEq, Repr

/-- The filepath rewrite of line 53: every slash in the path is replaced
by the OS path separator `os.sep` (a single character). -/
def replaceSep (sep : Char) (s : String) : String :=
  ⟨s.data.map (fun c => if c = '/' then sep else c)⟩

/-- The Python membership test of the word "herbarium" in the path:
literal substring containment. -/
def containsHerbarium (path : String) : Bool :=
  decide ("herbarium".data <:+: path.data)

/-- The lambda of line 57: "herbarium" when the path contains that
substring, "field" otherwise. -/
def domainOf (path : String) : String :=
  if containsHerbarium path then "herbarium" else "field"

/-- Lines 68–69: rebuild a clean-name-keyed trait dictionary with formal
names as keys, keeping only the entries whose clean-name key is present in
`clean_name_to_formal_name` (the comprehension filter `if clean_key in
clean_name_to_formal_name`). -/
def remapTraits (cnf : Dict String String) (tm : Dict String String) :
    Dict String String :=
  tm.foldl (fun acc p =>
    match dictGet cnf p.1 with
    | some formal => dictInsert acc formal p.2
    | none => acc) []

/-- A manifest row after the column-adding steps 3–5: filepath rewritten,
species name and traits joined (`none` models pandas NaN from a failed
`Series.map` lookup), domain derived from the rewritten path. -/
structure EnrichedRow where
  filepath : String
  classid : Int
  species_name : Option String
  domain : String
  leaf_shape : Option String
  leaf_arrangement : Option String
deriving DecidableEq, Repr

/-- Steps 3–5 for a single manifest row. -/
def enrichRow (sep : Char) (cff : Dict Int String)
    (shapeM arrM : Dict String String) (r : TrainRow) : EnrichedRow :=
  let fp := replaceSep sep r.filepath
  let sname := dictGet cff r.classid
  { filepath := fp
    classid := r.classid
    species_name := sname
    domain := domainOf fp
    leaf_shape := sname.bind (dictGet shapeM)
    leaf_arrangement := sname.bind (dictGet arrM) }

/-- Python string comparison `a < b`, as used by pandas when it sorts the
categories of a string column: strict lexicographic order on the code
points of the characters. -/
def strLt (a b : String) : Prop := List.Lex (· < ·) a.data b.data

/-- Python string comparison `a <= b`: lexicographically smaller or equal. -/
def strLe (a b : String) : Prop := strLt a b ∨ a = b

instance strLt.decidableRel : DecidableRel strLt := fun a b =>
  inferInstanceAs (Decidable (List.Lex (· < ·) a.data b.data))

instance strLe.decidableRel : DecidableRel strLe := fun a b =>
  inferInstanceAs (Decidable (strLt a b ∨ a = b))

/-- The category index built by the categorical conversion of a string
column: the distinct non-null values in lexicographic order. -/
def catCategories (col : List (Option String)) : List String :=
  List.insertionSort strLe (col.filterMap id).dedup

/-- `cat.codes` for one cell: null ↦ -1, a value ↦ its position in the
sorted category index. -/
def catCode (cats : List String) : Option String → Int
  | none => -1
  | some v => (cats.indexOf v : Int)

/-- A row of the final output table written to `full_visual_metadata.csv`. -/
structure OutRow extends EnrichedRow where
  species_label : Int
  leaf_shape_label : Int
  leaf_arrangement_label : Int
deriving DecidableEq, Repr

/-- The `species_name` column of the enriched table. -/
def speciesCol (sep : Char) (cff : Dict Int String)
    (shapeM arrM : Dict String String) (train : List TrainRow) :
    List (Option String) :=
  (train.map (enrichRow sep cff shapeM arrM)).map (·.species_name)

/-- The `leaf_shape` column of the enriched table. -/
def shapeCol (sep : Char) (cff : Dict Int String)
    (shapeM arrM : Dict String String) (train : List TrainRow) :
    List (Option String) :=
  (train.map (enrichRow sep cff shapeM arrM)).map (·.leaf_shape)

/-- The `leaf_arrangement` column of the enriched table. -/
def arrCol (sep : Char) (cff : Dict Int String)
    (shapeM arrM : Dict String String) (train : List TrainRow) :
    List (Option String) :=
  (train.map (enrichRow sep cff shapeM arrM)).map (·.leaf_arrangement)

/-- Line 83–85 for a single enriched row, given the three category
indices of the whole table. -/
def addLabels (speciesCats shapeCats arrCats : List String)
    (e : EnrichedRow) : OutRow :=
  { e with
    species_label := catCode speciesCats e.species_name
    leaf_shape_label := catCode shapeCats e.leaf_shape
    leaf_arrangement_label := catCode arrCats e.leaf_arrangement }

/-- Steps 3–6 of the script on the loaded manifest: enrich every row, then
append the three categorical label columns (lines 83–85). -/
def buildRows (sep : Char) (cff : Dict Int String)
    (shapeM arrM : Dict String String) (train : List TrainRow) :
    List OutRow :=
  (train.map (enrichRow sep cff shapeM arrM)).map
    (addLabels (catCategories (speciesCol sep cff shapeM arrM train))
      (catCategories (shapeCol sep cff shapeM arrM train))
      (catCategories (arrCol sep cff shapeM arrM train)))

/-- Observable outcome of one run of the script. `success rows` means the
output file was written with exactly `rows`; `handledAbort msg` models a
caught exception: the message is printed and the function returns before
`to_csv`, so no output is produced; `unhandled msg` models an exception
that propagates out of `load_and_map_data` and kills the process. -/
inductive RunResult
  | success (rows : List OutRow)
  | handledAbort (msg : String)
  | unhandled (msg : String)
deriving DecidableEq, Repr

/-- The rows written by the run, if any: only a successful run writes the
output file (`to_csv` is the final step, so an aborted run writes
nothing — no partial output). -/
def RunResult.output? : RunResult → Option (List OutRow)
  | .success rows => some rows
  | _ => none

/-- The whole of `load_and_map_data`, parameterised by the OS path
separator and the contents of the four input files (`none` = the file is
missing and opening it raises `FileNotFoundError`).  The species list and
the manifest are opened outside any `try`, so a missing file there is
unhandled; the two trait files are opened inside `try … except
FileNotFoundError`, so a missing one is caught, a message is printed and
the function returns without writing output. -/
def load_and_map_data (sep : Char)
    (speciesFile : Option (List String))
    (trainFile : Option (List TrainRow))
    (shapeFile : Option (Dict String String))
    (arrFile : Option (Dict String String)) : RunResult :=
  match speciesFile with
  | none => .unhandled "FileNotFoundError: species_list.txt"
  | some lines =>
    match parseSpeciesList lines [] [] with
    | .error e => .unhandled e
    | .ok (cff, cnf) =>
      match trainFile with
      | none => .unhandled "FileNotFoundError: train.txt"
      | some train =>
        match shapeFile with
        | none => .handledAbort "ERROR: A descriptor file was not found"
        | some shapeClean =>
          match arrFile with
          | none => .handledAbort "ERROR: A descriptor file was not found"
          | some arrClean =>
            .success (buildRows sep cff
              (remapTraits cnf shapeClean) (remapTraits cnf arrClean) train)

/-! ### Dictionary lemmas -/

theorem any_key_iff_mem_dictKeys [BEq α] [LawfulBEq α] (d : Dict α β) (k : α) :
    (d.any fun p => p.1 == k) = true ↔ k ∈ dictKeys d := by
  simp only [List.any_eq_true, beq_iff_eq, dictKeys, List.mem_map]

theorem dictGet_eq_none_iff [BEq α] [LawfulBEq α] (d : Dict α β) (k : α) :
    dictGet d k = none ↔ k ∉ dictKeys d := by
  simp only [dictGet, Option.map_eq_none', List.find?_eq_none, beq_iff_eq,
    dictKeys, List.mem_map]
  constructor
  · rintro h ⟨p, hp, hk⟩
    exact h p hp hk
  · intro h p hp hk
    exact h ⟨p, hp, hk⟩

theorem dictGet_isSome_of_mem_dictKeys [BEq α] [LawfulBEq α] (d : Dict α β)
    (k : α) (h : k ∈ dictKeys d) : (dictGet d k).isSome := by
  rcases ho : dictGet d k with _ | v
  · exact absurd h ((dictGet_eq_none_iff d k).1 ho)
  · rfl

theorem mem_dictKeys_dictInsert [BEq α] [LawfulBEq α] (d : Dict α β)
    (k : α) (v : β) (a : α) :
    a ∈ dictKeys (dictInsert d k v) ↔ a = k ∨ a ∈ dictKeys d := by
  unfold dictInsert
  by_cases h : (d.any fun p => p.1 == k) = true
  · rw [if_pos h]
    have hk : k ∈ dictKeys d := (any_key_iff_mem_dictKeys d k).1 h
    simp only [dictKeys, List.mem_map, List.map_map] at *
    constructor
    · rintro ⟨p, hp, hpa⟩
      by_cases hpk : (p.1 == k) = true
      · simp only [Function.comp_apply, hpk, if_pos] at hpa
        exact Or.inl hpa.symm
      · simp only [Function.comp_apply, hpk, if_neg] at hpa
        exact Or.inr ⟨p, hp, hpa⟩
    · rintro (rfl | ⟨p, hp, hpa⟩)
      · rcases hk with ⟨q, hq, hqa⟩
        refine ⟨q, hq, ?_⟩
        simp [Function.comp_apply, hqa]
      · by_cases hpk : (p.1 == k) = true
        · rcases hk with ⟨q, hq, hqa⟩
          refine ⟨q, hq, ?_⟩
          have : a = k := by
            have := beq_iff_eq.1 hpk
            rw [← hpa, this]
          simp [Function.comp_apply, hqa, this]
        · refine ⟨p, hp, ?_⟩
          simp only [Function.comp_apply]
          rw [if_neg hpk]
          exact hpa
  · rw [if_neg h]
    simp only [dictKeys, List.map_append, List.mem_append, List.map_cons,
      List.map_nil, List.mem_singleton]
    tauto

theorem length_dictInsert_of_not_mem [BEq α] [LawfulBEq α] (d : Dict α β)
    (k : α) (v : β) (h : k ∉ dictKeys d) :
    (dictInsert d k v).length = d.length + 1 := by
  unfold dictInsert
  rw [if_neg (fun ha => h ((any_key_iff_mem_dictKeys d k).1 ha))]
  simp

/-! ### Species-list parsing lemmas -/

/-- A species-list line the loop accepts without raising: blank (skipped)
or parseable into a classid and a formal name. -/
def validSpeciesLine (line : String) : Bool :=
  (pyStrip line).data.isEmpty || (parseSpeciesLine line).isSome

/-- Number of non-blank lines of the species list. -/
def nonblankCount (lines : List String) : Nat :=
  (lines.filter (fun l => !(pyStrip l).data.isEmpty)).length

/-- The classids of the non-blank, parseable lines, in file order. -/
def parsedClassids (lines : List String) : List Int :=
  lines.filterMap (fun l =>
    if (pyStrip l).data.isEmpty then none else (parseSpeciesLine l).map (·.1))

/-- The clean names of the non-blank, parseable lines, in file order. -/
def parsedCleanNames (lines : List String) : List String :=
  lines.filterMap (fun l =>
    if (pyStrip l).data.isEmpty then none
    else (parseSpeciesLine l).map (fun p => cleanName p.2))

theorem parseSpeciesList_ok_of_valid (lines : List String) :
    ∀ (a1 : Dict Int String) (a2 : Dict String String),
      lines.all validSpeciesLine = true →
      ∃ d1 d2, parseSpeciesList lines a1 a2 = .ok (d1, d2) := by
  induction lines with
  | nil => exact fun a1 a2 _ => ⟨a1, a2, rfl⟩
  | cons line rest ih =>
    intro a1 a2 h
    rw [List.all_cons, Bool.and_eq_true] at h
    by_cases hb : (pyStrip line).data.isEmpty = true
    · rw [parseSpeciesList, if_pos hb]
      exact ih a1 a2 h.2
    · rw [parseSpeciesList, if_neg hb]
      have hv := h.1
      unfold validSpeciesLine at hv
      rw [Bool.or_eq_true] at hv
      rcases hv with hv | hv
      · exact absurd hv hb
      · rcases hp : parseSpeciesLine line with _ | ⟨cid, formal⟩
        · rw [hp] at hv
          simp at hv
        · exact ih _ _ h.2

theorem parseSpeciesList_error_of_invalid (lines : List String) :
    ∀ (a1 : Dict Int String) (a2 : Dict String String),
      lines.all validSpeciesLine = false →
      parseSpeciesList lines a1 a2 = .error "ValueError" := by
  induction lines with
  | nil => intro a1 a2 h; simp at h
  | cons line rest ih =>
    intro a1 a2 h
    rw [List.all_cons, Bool.and_eq_false_iff] at h
    by_cases hb : (pyStrip line).data.isEmpty = true
    · rw [parseSpeciesList, if_pos hb]
      rcases h with h | h
      · unfold validSpeciesLine at h
        rw [Bool.or_eq_false_iff] at h
        exact absurd hb (by simp [h.1])
      · exact ih a1 a2 h
    · rw [parseSpeciesList, if_neg hb]
      rcases hp : parseSpeciesLine line with _ | ⟨cid, formal⟩
      · rfl
      · rcases h with h | h
        · unfold validSpeciesLine at h
          rw [Bool.or_eq_false_iff] at h
          rw [hp] at h
          simp at h
        · exact ih _ _ h

theorem parseSpeciesList_lengths (lines : List String) :
    ∀ (a1 : Dict Int String) (a2 : Dict String String) (d1 : Dict Int String)
      (d2 : Dict String String),
      parseSpeciesList lines a1 a2 = .ok (d1, d2) →
      (parsedClassids lines).Nodup →
      (∀ c ∈ parsedClassids lines, c ∉ dictKeys a1) →
      (parsedCleanNames lines).Nodup →
      (∀ n ∈ parsedCleanNames lines, n ∉ dictKeys a2) →
      d1.length = a1.length + nonblankCount lines ∧
      d2.length = a2.length + nonblankCount lines := by
  induction lines with
  | nil =>
    intro a1 a2 d1 d2 hp _ _ _ _
    rw [parseSpeciesList] at hp
    cases hp
    simp [nonblankCount]
  | cons line rest ih =>
    intro a1 a2 d1 d2 hp hc1 hf1 hc2 hf2
    by_cases hb : (pyStrip line).data.isEmpty = true
    · rw [parseSpeciesList, if_pos hb] at hp
      have hb2 : (pyStrip line).data = [] := by simpa using hb
      have hcount : nonblankCount (line :: rest) = nonblankCount rest := by
        simp [nonblankCount, List.filter_cons, hb2]
      have hpc : parsedClassids (line :: rest) = parsedClassids rest := by
        simp [parsedClassids, List.filterMap_cons, hb2]
      have hpn : parsedCleanNames (line :: rest) = parsedCleanNames rest := by
        simp [parsedCleanNames, List.filterMap_cons, hb2]
      rw [hpc] at hc1 hf1
      rw [hpn] at hc2 hf2
      rw [hcount]
      exact ih a1 a2 d1 d2 hp hc1 hf1 hc2 hf2
    · rw [parseSpeciesList, if_neg hb] at hp
      rcases hl : parseSpeciesLine line with _ | ⟨cid, formal⟩
      · rw [hl] at hp
        cases hp
      · rw [hl] at hp
        have hb2 : ¬(pyStrip line).data = [] := by simpa using hb
        have hcount : nonblankCount (line :: rest) = nonblankCount rest + 1 := by
          simp [nonblankCount, List.filter_cons, hb2]
        have hpc : parsedClassids (line :: rest) = cid :: parsedClassids rest := by
          simp [parsedClassids, List.filterMap_cons, hb2, hl]
        have hpn : parsedCleanNames (line :: rest) =
            cleanName formal :: parsedCleanNames rest := by
          simp [parsedCleanNames, List.filterMap_cons, hb2, hl]
        rw [hpc, List.nodup_cons] at hc1
        rw [hpn, List.nodup_cons] at hc2
        have hcid : cid ∉ dictKeys a1 := by
          apply hf1
          rw [hpc]
          exact List.mem_cons_self _ _
        have hcn : cleanName formal ∉ dictKeys a2 := by
          apply hf2
          rw [hpn]
          exact List.mem_cons_self _ _
        have hf1' : ∀ c ∈ parsedClassids rest,
            c ∉ dictKeys (dictInsert a1 cid formal) := by
          intro c hc
          rw [mem_dictKeys_dictInsert]
          rintro (rfl | hmem)
          · exact hc1.1 hc
          · exact hf1 c (by rw [hpc]; exact List.mem_cons_of_mem _ hc) hmem
        have hf2' : ∀ n ∈ parsedCleanNames rest,
            n ∉ dictKeys (dictInsert a2 (cleanName formal) formal) := by
          intro n hn
          rw [mem_dictKeys_dictInsert]
          rintro (rfl | hmem)
          · exact hc2.1 hn
          · exact hf2 n (by rw [hpn]; exact List.mem_cons_of_mem _ hn) hmem
        have := ih _ _ d1 d2 hp hc1.2 hf1' hc2.2 hf2'
        rw [length_dictInsert_of_not_mem a1 cid formal hcid] at this
        rw [length_dictInsert_of_not_mem a2 (cleanName formal) formal hcn] at this
        rw [hcount]
        omega

/-! ### Order facts about Python string comparison -/

theorem string_ext_data {s t : String} (h : s.data = t.data) : s = t := by
  cases s
  cases t
  exact congrArg String.mk h

theorem strLt_trichotomy (a b : String) : strLt a b ∨ a = b ∨ strLt b a := by
  rcases @trichotomous_of (List Char) (List.Lex (· < ·)) _ a.data b.data
    with h | h | h
  · exact Or.inl h
  · exact Or.inr (Or.inl (string_ext_data h))
  · exact Or.inr (Or.inr h)

theorem strLt_asymm {a b : String} (h : strLt a b) : ¬ strLt b a :=
  asymm_of (List.Lex (· < ·)) h

theorem strLt_irrefl (a : String) : ¬ strLt a a :=
  fun h => strLt_asymm h h

theorem strLt_trans {a b c : String} (hab : strLt a b) (hbc : strLt b c) :
    strLt a c :=
  trans_of (List.Lex (· < ·)) hab hbc

instance : IsTotal String strLe where
  total a b := by
    rcases strLt_trichotomy a b with h | h | h
    · exact Or.inl (Or.inl h)
    · exact Or.inl (Or.inr h)
    · exact Or.inr (Or.inl h)

instance : IsTrans String strLe where
  trans a b c hab hbc := by
    rcases hab with hab | rfl
    · rcases hbc with hbc | rfl
      · exact Or.inl (strLt_trans hab hbc)
      · exact Or.inl hab
    · exact hbc

/-! ### Category-encoding lemmas -/

theorem mem_catCategories (col : List (Option String)) (a : String) :
    a ∈ catCategories col ↔ some a ∈ col := by
  unfold catCategories
  rw [(List.perm_insertionSort _ _).mem_iff, List.mem_dedup]
  simp only [List.mem_filterMap, id_eq]
  exact ⟨fun ⟨x, hx, hxa⟩ => hxa ▸ hx, fun h => ⟨some a, h, rfl⟩⟩

theorem nodup_catCategories (col : List (Option String)) :
    (catCategories col).Nodup :=
  (List.perm_insertionSort _ _).nodup_iff.2 (List.nodup_dedup _)

theorem sorted_le_catCategories (col : List (Option String)) :
    (catCategories col).Sorted strLe :=
  List.sorted_insertionSort _ _

theorem sorted_lt_catCategories (col : List (Option String)) :
    (catCategories col).Sorted strLt :=
  (sorted_le_catCategories col).imp₂
    (fun _ _ hle hne => hle.resolve_right hne) (nodup_catCategories col)

theorem indexOf_lt_indexOf_of_sorted_strLt {l : List String}
    (hs : l.Sorted strLt) {a b : String} (ha : a ∈ l) (hb : b ∈ l)
    (hab : strLt a b) : l.indexOf a < l.indexOf b := by
  by_contra hcon
  push_neg at hcon
  rcases eq_or_lt_of_le hcon with heq | hlt
  · have h1 := List.indexOf_get (a := a) (l := l) (List.indexOf_lt_length.2 ha)
    have h2 := List.indexOf_get (a := b) (l := l) (List.indexOf_lt_length.2 hb)
    have hba : a = b := by
      rw [← h1, ← h2]
      congr 1
      exact Fin.ext heq.symm
    rw [hba] at hab
    exact strLt_irrefl b hab
  · have hr := hs.rel_get_of_lt
      (a := ⟨l.indexOf b, List.indexOf_lt_length.2 hb⟩)
      (b := ⟨l.indexOf a, List.indexOf_lt_length.2 ha⟩) (Fin.mk_lt_mk.2 hlt)
    rw [List.indexOf_get, List.indexOf_get] at hr
    exact strLt_asymm hr hab

theorem catCode_lt_iff (col : List (Option String)) {a b : String}
    (ha : some a ∈ col) (hb : some b ∈ col) :
    strLt a b ↔
      catCode (catCategories col) (some a) <
        catCode (catCategories col) (some b) := by
  have ha' : a ∈ catCategories col := (mem_catCategories col a).2 ha
  have hb' : b ∈ catCategories col := (mem_catCategories col b).2 hb
  have hs := sorted_lt_catCategories col
  simp only [catCode, Nat.cast_lt]
  constructor
  · exact fun h => indexOf_lt_indexOf_of_sorted_strLt hs ha' hb' h
  · intro h
    rcases strLt_trichotomy a b with h' | h' | h'
    · exact h'
    · subst h'
      exact absurd h (lt_irrefl _)
    · exact absurd h
        (Nat.not_lt.2 (indexOf_lt_indexOf_of_sorted_strLt hs hb' ha' h').le)

theorem catCode_nonneg (cats : List String) (o : Option String)
    (h : o ≠ none) : 0 ≤ catCode cats o := by
  rcases o with _ | v
  · exact absurd rfl h
  · exact Int.natCast_nonneg _

/-! ### Trait-remapping lemmas -/

theorem remapTraits_keys_aux (cnf : Dict String String)
    (tm : Dict String String) :
    ∀ (acc : Dict String String) (a : String),
      a ∈ dictKeys (tm.foldl (fun acc p =>
          match dictGet cnf p.1 with
          | some formal => dictInsert acc formal p.2
          | none => acc) acc) ↔
        a ∈ dictKeys acc ∨ ∃ ck v, (ck, v) ∈ tm ∧ dictGet cnf ck = some a := by
  induction tm with
  | nil =>
    intro acc a
    simp
  | cons p tm ih =>
    intro acc a
    rw [List.foldl_cons]
    rcases hg : dictGet cnf p.1 with _ | f
    · simp only [hg]
      rw [ih]
      constructor
      · rintro (h | ⟨ck, v, hmem, hck⟩)
        · exact Or.inl h
        · exact Or.inr ⟨ck, v, List.mem_cons_of_mem _ hmem, hck⟩
      · rintro (h | ⟨ck, v, hmem, hck⟩)
        · exact Or.inl h
        · rcases List.mem_cons.1 hmem with heq | hmem'
          · rw [show ck = p.1 from congrArg Prod.fst heq] at hck
            rw [hg] at hck
            cases hck
          · exact Or.inr ⟨ck, v, hmem', hck⟩
    · simp only [hg]
      rw [ih, mem_dictKeys_dictInsert]
      constructor
      · rintro ((rfl | h) | ⟨ck, v, hmem, hck⟩)
        · exact Or.inr ⟨p.1, p.2, List.mem_cons_self _ _, hg⟩
        · exact Or.inl h
        · exact Or.inr ⟨ck, v, List.mem_cons_of_mem _ hmem, hck⟩
      · rintro (h | ⟨ck, v, hmem, hck⟩)
        · exact Or.inl (Or.inr h)
        · rcases List.mem_cons.1 hmem with heq | hmem'
          · rw [show ck = p.1 from congrArg Prod.fst heq] at hck
            rw [hg] at hck
            exact Or.inl (Or.inl (Option.some_injective _ hck).symm)
          · exact Or.inr ⟨ck, v, hmem', hck⟩

theorem mem_dictKeys_remapTraits (cnf tm : Dict String String) (a : String) :
    a ∈ dictKeys (remapTraits cnf tm) ↔
      ∃ ck v, (ck, v) ∈ tm ∧ dictGet cnf ck = some a := by
  unfold remapTraits
  rw [remapTraits_keys_aux]
  simp [dictKeys]

theorem remapTraits_filter_resolved (cnf tm : Dict String String) :
    remapTraits cnf (tm.filter (fun p => (dictGet cnf p.1).isSome)) =
      remapTraits cnf tm := by
  unfold remapTraits
  suffices h : ∀ (acc : Dict String String),
      (tm.filter (fun p => (dictGet cnf p.1).isSome)).foldl (fun acc p =>
        match dictGet cnf p.1 with
        | some formal => dictInsert acc formal p.2
        | none => acc) acc =
      tm.foldl (fun acc p =>
        match dictGet cnf p.1 with
        | some formal => dictInsert acc formal p.2
        | none => acc) acc from h []
  induction tm with
  | nil => intro acc; rfl
  | cons p tm ih =>
    intro acc
    rw [List.filter_cons]
    rcases hg : dictGet cnf p.1 with _ | f
    · simp only [Option.isSome_none, Bool.false_eq_true, if_false,
        List.foldl_cons, hg]
      exact ih acc
    · simp only [Option.isSome_some, if_true, List.foldl_cons, hg]
      exact ih _

/-! ### Run-level lemmas -/

theorem run_success_eq (sep : Char) (lines : List String)
    (train : List TrainRow) (shape arr : Dict String String)
    (cff : Dict Int String) (cnf : Dict String String)
    (hp : parseSpeciesList lines [] [] = .ok (cff, cnf)) :
    load_and_map_data sep (some lines) (some train) (some shape) (some arr) =
      .success (buildRows sep cff (remapTraits cnf shape)
        (remapTraits cnf arr) train) := by
  simp only [load_and_map_data, hp]

theorem buildRows_length (sep : Char) (cff : Dict Int String)
    (shapeM arrM : Dict String String) (train : List TrainRow) :
    (buildRows sep cff shapeM arrM train).length = train.length := by
  unfold buildRows
  simp

theorem buildRows_getElem? (sep : Char) (cff : Dict Int String)
    (shapeM arrM : Dict String String) (train : List TrainRow) (i : Nat) :
    (buildRows sep cff shapeM arrM train)[i]? =
      (train[i]?).map (fun t =>
        addLabels (catCategories (speciesCol sep cff shapeM arrM train))
          (catCategories (shapeCol sep cff shapeM arrM train))
          (catCategories (arrCol sep cff shapeM arrM train))
          (enrichRow sep cff shapeM arrM t)) := by
  unfold buildRows
  rw [List.getElem?_map, List.getElem?_map, Option.map_map]
  rfl

/-! ### Projection lemmas for the row constructors -/

@[simp] theorem addLabels_filepath (c1 c2 c3 : List String)
    (e : EnrichedRow) : (addLabels c1 c2 c3 e).filepath = e.filepath := rfl

@[simp] theorem addLabels_classid (c1 c2 c3 : List String)
    (e : EnrichedRow) : (addLabels c1 c2 c3 e).classid = e.classid := rfl

@[simp] theorem addLabels_species_name (c1 c2 c3 : List String)
    (e : EnrichedRow) :
    (addLabels c1 c2 c3 e).species_name = e.species_name := rfl

@[simp] theorem addLabels_domain (c1 c2 c3 : List String)
    (e : EnrichedRow) : (addLabels c1 c2 c3 e).domain = e.domain := rfl

@[simp] theorem addLabels_leaf_shape (c1 c2 c3 : List String)
    (e : EnrichedRow) : (addLabels c1 c2 c3 e).leaf_shape = e.leaf_shape := rfl

@[simp] theorem addLabels_leaf_arrangement (c1 c2 c3 : List String)
    (e : EnrichedRow) :
    (addLabels c1 c2 c3 e).leaf_arrangement = e.leaf_arrangement := rfl

@[simp] theorem addLabels_species_label (c1 c2 c3 : List String)
    (e : EnrichedRow) :
    (addLabels c1 c2 c3 e).species_label = catCode c1 e.species_name := rfl

@[simp] theorem addLabels_leaf_shape_label (c1 c2 c3 : List String)
    (e : EnrichedRow) :
    (addLabels c1 c2 c3 e).leaf_shape_label = catCode c2 e.leaf_shape := rfl

@[simp] theorem addLabels_leaf_arrangement_label (c1 c2 c3 : List String)
    (e : EnrichedRow) :
    (addLabels c1 c2 c3 e).leaf_arrangement_label =
      catCode c3 e.leaf_arrangement := rfl

@[simp] theorem enrichRow_filepath (sep : Char) (cff : Dict Int String)
    (shapeM arrM : Dict String String) (t : TrainRow) :
    (enrichRow sep cff shapeM arrM t).filepath = replaceSep sep t.filepath :=
  rfl

@[simp] theorem enrichRow_classid (sep : Char) (cff : Dict Int String)
    (shapeM arrM : Dict String String) (t : TrainRow) :
    (enrichRow sep cff shapeM arrM t).classid = t.classid := rfl

@[simp] theorem enrichRow_species_name (sep : Char) (cff : Dict Int String)
    (shapeM arrM : Dict String String) (t : TrainRow) :
    (enrichRow sep cff shapeM arrM t).species_name =
      dictGet cff t.classid := rfl

@[simp] theorem enrichRow_domain (sep : Char) (cff : Dict Int String)
    (shapeM arrM : Dict String String) (t : TrainRow) :
    (enrichRow sep cff shapeM arrM t).domain =
      domainOf (replaceSep sep t.filepath) := rfl

@[simp] theorem enrichRow_leaf_shape (sep : Char) (cff : Dict Int String)
    (shapeM arrM : Dict String String) (t : TrainRow) :
    (enrichRow sep cff shapeM arrM t).leaf_shape =
      (dictGet cff t.classid).bind (dictGet shapeM) := rfl

@[simp] theorem enrichRow_leaf_arrangement (sep : Char)
    (cff : Dict Int String) (shapeM arrM : Dict String String)
    (t : TrainRow) :
    (enrichRow sep cff shapeM arrM t).leaf_arrangement =
      (dictGet cff t.classid).bind (dictGet arrM) := rfl

/-! ### Inversion lemmas for a successful run -/

theorem run_success_inv (sep : Char) (sf : Option (List String))
    (tf : Option (List TrainRow)) (shf arf : Option (Dict String String))
    (out : List OutRow)
    (hrun : load_and_map_data sep sf tf shf arf = .success out) :
    ∃ lines train shape arr cff cnf,
      sf = some lines ∧ tf = some train ∧ shf = some shape ∧
      arf = some arr ∧ parseSpeciesList lines [] [] = .ok (cff, cnf) ∧
      out = buildRows sep cff (remapTraits cnf shape) (remapTraits cnf arr)
        train := by
  rcases sf with _ | lines
  · simp [load_and_map_data] at hrun
  rcases hps : parseSpeciesList lines [] [] with e | ⟨cff, cnf⟩
  · rw [load_and_map_data] at hrun
    rw [hps] at hrun
    cases hrun
  rcases tf with _ | train
  · rw [load_and_map_data] at hrun
    rw [hps] at hrun
    cases hrun
  rcases shf with _ | shape
  · rw [load_and_map_data] at hrun
    rw [hps] at hrun
    cases hrun
  rcases arf with _ | arr
  · rw [load_and_map_data] at hrun
    rw [hps] at hrun
    cases hrun
  rw [load_and_map_data] at hrun
  rw [hps] at hrun
  cases hrun
  exact ⟨lines, train, shape, arr, cff, cnf, rfl, rfl, rfl, rfl, hps, rfl⟩

theorem mem_buildRows_inv (sep : Char) (cff : Dict Int String)
    (shapeM arrM : Dict String String) (train : List TrainRow) (r : OutRow)
    (hr : r ∈ buildRows sep cff shapeM arrM train) :
    ∃ t ∈ train,
      r = addLabels (catCategories (speciesCol sep cff shapeM arrM train))
        (catCategories (shapeCol sep cff shapeM arrM train))
        (catCategories (arrCol sep cff shapeM arrM train))
        (enrichRow sep cff shapeM arrM t) := by
  unfold buildRows at hr
  rcases List.mem_map.1 hr with ⟨e, he, rfl⟩
  rcases List.mem_map.1 he with ⟨t, ht, rfl⟩
  exact ⟨t, ht, rfl⟩

theorem mem_speciesCol_of_getElem? (sep : Char) (cff : Dict Int String)
    (shapeM arrM : Dict String String) (train : List TrainRow) (i : Nat)
    (t : TrainRow) (ht : train[i]? = some t) :
    dictGet cff t.classid ∈ speciesCol sep cff shapeM arrM train := by
  unfold speciesCol
  rw [List.map_map]
  exact List.mem_map.2 ⟨t, List.getElem?_mem ht, rfl⟩

theorem mem_shapeCol_of_getElem? (sep : Char) (cff : Dict Int String)
    (shapeM arrM : Dict String String) (train : List TrainRow) (i : Nat)
    (t : TrainRow) (ht : train[i]? = some t) :
    (dictGet cff t.classid).bind (dictGet shapeM) ∈
      shapeCol sep cff shapeM arrM train := by
  unfold shapeCol
  rw [List.map_map]
  exact List.mem_map.2 ⟨t, List.getElem?_mem ht, rfl⟩

theorem mem_arrCol_of_getElem? (sep : Char) (cff : Dict Int String)
    (shapeM arrM : Dict String String) (train : List TrainRow) (i : Nat)
    (t : TrainRow) (ht : train[i]? = some t) :
    (dictGet cff t.classid).bind (dictGet arrM) ∈
      arrCol sep cff shapeM arrM train := by
  unfold arrCol
  rw [List.map_map]
  exact List.mem_map.2 ⟨t, List.getElem?_mem ht, rfl⟩

/-! ### Concrete example inputs and rows -/

/-- An example species list: two species and a trailing blank line. -/
def exSpecies : List String :=
  ["105951;Acer rubrum L.", "2;Quercus alba Mill.", ""]

/-- A species list with a malformed second line (no semicolon). -/
def exBadSpecies : List String :=
  ["105951;Acer rubrum L.", "no semicolon here"]

/-- Two valid species lines whose formal names share the clean name
"Acer rubrum". -/
def exDupSpecies : List String :=
  ["1;Acer rubrum L.", "2;Acer rubrum Mill."]

/-- An example manifest: one herbarium image, one field image, and one row
whose classid does not occur in the species list. -/
def exTrain : List TrainRow :=
  [⟨"train/herbarium/105951/img1.jpg", 105951⟩,
   ⟨"train/field/2/img2.jpg", 2⟩,
   ⟨"train/field/999/img3.jpg", 999⟩]

/-- A leaf-shape trait file covering both example species. -/
def exShape : Dict String String :=
  [("Acer rubrum", "lobed"), ("Quercus alba", "entire")]

/-- A leaf-arrangement trait file covering both example species. -/
def exArr : Dict String String :=
  [("Acer rubrum", "opposite"), ("Quercus alba", "alternate")]

/-- A leaf-shape trait file covering only one example species. -/
def exShapeSmall : Dict String String := [("Acer rubrum", "lobed")]

/-- A leaf-arrangement trait file covering only one example species. -/
def exArrSmall : Dict String String := [("Acer rubrum", "opposite")]

/-- A leaf-shape trait file with a key that resolves to no species. -/
def exShapeBad : Dict String String :=
  [("Unknownus plantus", "oval"), ("Acer rubrum", "lobed")]

/-- The classid map parsed from `exSpecies`. -/
def exCff : Dict Int String :=
  [(105951, "Acer rubrum L."), (2, "Quercus alba Mill.")]

/-- The clean-name map parsed from `exSpecies`. -/
def exCnf : Dict String String :=
  [("Acer rubrum", "Acer rubrum L."), ("Quercus alba", "Quercus alba Mill.")]

/-- The output table of the run on `exSpecies`, `exTrain`, `exShape`,
`exArr` with separator `/`. -/
def exOut : List OutRow :=
  buildRows '/' exCff (remapTraits exCnf exShape) (remapTraits exCnf exArr)
    exTrain

/-- Row 0 of `exOut`. -/
def exRow0 : OutRow :=
  { filepath := "train/herbarium/105951/img1.jpg", classid := 105951,
    species_name := some "Acer rubrum L.", domain := "herbarium",
    leaf_shape := some "lobed", leaf_arrangement := some "opposite",
    species_label := 0, leaf_shape_label := 1, leaf_arrangement_label := 1 }

/-- Row 1 of `exOut`. -/
def exRow1 : OutRow :=
  { filepath := "train/field/2/img2.jpg", classid := 2,
    species_name := some "Quercus alba Mill.", domain := "field",
    leaf_shape := some "entire", leaf_arrangement := some "alternate",
    species_label := 1, leaf_shape_label := 0, leaf_arrangement_label := 0 }

/-- Row 2 of `exOut`: its classid 999 is not in the species list. -/
def exRow2 : OutRow :=
  { filepath := "train/field/999/img3.jpg", classid := 999,
    species_name := none, domain := "field",
    leaf_shape := none, leaf_arrangement := none,
    species_label := -1, leaf_shape_label := -1,
    leaf_arrangement_label := -1 }

/-- Row 1 of the run with the one-species trait files: the species name is
present but both traits are null. -/
def exRowSmall1 : OutRow :=
  { filepath := "train/field/2/img2.jpg", classid := 2,
    species_name := some "Quercus alba Mill.", domain := "field",
    leaf_shape := none, leaf_arrangement := none,
    species_label := 1, leaf_shape_label := -1,
    leaf_arrangement_label := -1 }

/-- Row 0 of the run with the Windows separator. -/
def exRow0W : OutRow :=
  { filepath := "train\\herbarium\\105951\\img1.jpg", classid := 105951,
    species_name := some "Acer rubrum L.", domain := "herbarium",
    leaf_shape := some "lobed", leaf_arrangement := some "opposite",
    species_label := 0, leaf_shape_label := 1, leaf_arrangement_label := 1 }

/-! ### The claims -/

/-- Claim C1: for every row of the table produced by a successful run, the
derived domain column equals "herbarium" iff the literal substring
"herbarium" occurs in the filepath of that row, and equals "field"
otherwise. -/
theorem C1_domain_iff_herbarium_substring (sep : Char)
    (sf : Option (List String)) (tf : Option (List TrainRow))
    (shf arf : Option (Dict String String)) (out : List OutRow) (r : OutRow)
    (hrun : load_and_map_data sep sf tf shf arf = .success out)
    (hr : r ∈ out) :
    (r.domain = "herbarium" ↔ "herbarium".data <:+: r.filepath.data) ∧
    (¬ "herbarium".data <:+: r.filepath.data → r.domain = "field") := by
  obtain ⟨lines, train, shape, arr, cff, cnf, rfl, rfl, rfl, rfl, hps, rfl⟩ :=
    run_success_inv sep sf tf shf arf out hrun
  obtain ⟨t, ht, rfl⟩ := mem_buildRows_inv _ _ _ _ _ _ hr
  rw [addLabels_domain, addLabels_filepath, enrichRow_domain,
    enrichRow_filepath]
  unfold domainOf containsHerbarium
  by_cases h : "herbarium".data <:+: (replaceSep sep t.filepath).data
  · rw [if_pos (decide_eq_true h)]
    exact ⟨⟨fun _ => h, fun _ => rfl⟩, fun hc => absurd h hc⟩
  · rw [if_neg (by simp [h])]
    exact ⟨⟨fun hf => absurd hf (by decide), fun hi => absurd hi h⟩,
      fun _ => rfl⟩

/-- Witness for C1 at row 0 of the example run. -/
theorem C1_witness :
    (exRow0.domain = "herbarium" ↔
      "herbarium".data <:+: exRow0.filepath.data) ∧
    (¬ "herbarium".data <:+: exRow0.filepath.data →
      exRow0.domain = "field") :=
  C1_domain_iff_herbarium_substring '/' (some exSpecies) (some exTrain)
    (some exShape) (some exArr) exOut exRow0 rfl (by decide)

/-- Counterexample to claim C2 as stated: both lines of `exDupSpecies` are
valid, yet the clean-name map has a single entry for two non-blank lines,
because both formal names share the clean name "Acer rubrum" and the
second insertion overwrites the first. -/
theorem C2_counterexample_duplicate_clean_names :
    exDupSpecies.all validSpeciesLine = true ∧
    nonblankCount exDupSpecies = 2 ∧
    parseSpeciesList exDupSpecies [] [] =
      .ok ([(1, "Acer rubrum L."), (2, "Acer rubrum Mill.")],
        [("Acer rubrum", "Acer rubrum Mill.")]) ∧
    ¬ ([("Acer rubrum", "Acer rubrum Mill.")] : Dict String String).length
      = 2 :=
  ⟨rfl, rfl, rfl, by decide⟩

/-- Claim C2 (amended): if every non-blank species-list line is valid and,
additionally, the parsed classids are pairwise distinct and the parsed
clean names are pairwise distinct, then each of the two maps contains
exactly one entry per non-blank line. -/
theorem C2_amended_one_entry_per_line (lines : List String)
    (cff : Dict Int String) (cnf : Dict String String)
    (hps : parseSpeciesList lines [] [] = .ok (cff, cnf))
    (hc : (parsedClassids lines).Nodup)
    (hn : (parsedCleanNames lines).Nodup) :
    cff.length = nonblankCount lines ∧ cnf.length = nonblankCount lines := by
  have h := parseSpeciesList_lengths lines [] [] cff cnf hps hc
    (by intro c _; simp [dictKeys]) hn (by intro n _; simp [dictKeys])
  simpa using h

/-- Witness for the amended C2 on the example species list. -/
theorem C2_witness :
    exCff.length = nonblankCount exSpecies ∧
    exCnf.length = nonblankCount exSpecies :=
  C2_amended_one_entry_per_line exSpecies exCff exCnf rfl (by decide)
    (by decide)

/-- Counterexample to claim C3 as stated: the trait file `exShapeBad` has
the key "Unknownus plantus", which resolves to no formal name, yet the run
succeeds and writes output; the unresolved entry is merely dropped, no
error is reported and nothing aborts. -/
theorem C3_counterexample_unresolved_key_no_abort :
    dictGet exCnf "Unknownus plantus" = none ∧
    load_and_map_data '/' (some exSpecies) (some exTrain) (some exShapeBad)
      (some exArr) =
      .success (buildRows '/' exCff (remapTraits exCnf exShapeBad)
        (remapTraits exCnf exArr) exTrain) ∧
    dictKeys (remapTraits exCnf exShapeBad) = ["Acer rubrum L."] :=
  ⟨rfl, rfl, rfl⟩

/-- Claim C3 (amended): a clean-name key of a trait JSON file that cannot
be resolved in the clean-name map is silently dropped by the comprehension
filter; the run is never aborted by such a key and still produces its
output (the KeyError handler is unreachable in this step). -/
theorem C3_amended_unresolved_keys_dropped (sep : Char)
    (lines : List String) (train : List TrainRow)
    (shape arr : Dict String String) (cff : Dict Int String)
    (cnf : Dict String String)
    (hps : parseSpeciesList lines [] [] = .ok (cff, cnf)) :
    load_and_map_data sep (some lines) (some train) (some shape)
      (some arr) =
      .success (buildRows sep cff (remapTraits cnf shape)
        (remapTraits cnf arr) train) ∧
    remapTraits cnf (shape.filter (fun p => (dictGet cnf p.1).isSome)) =
      remapTraits cnf shape ∧
    remapTraits cnf (arr.filter (fun p => (dictGet cnf p.1).isSome)) =
      remapTraits cnf arr :=
  ⟨run_success_eq sep lines train shape arr cff cnf hps,
   remapTraits_filter_resolved cnf shape,
   remapTraits_filter_resolved cnf arr⟩

/-- Witness for the amended C3 with the ill-keyed trait file. -/
theorem C3_witness :
    load_and_map_data '/' (some exSpecies) (some exTrain) (some exShapeBad)
      (some exArr) =
      .success (buildRows '/' exCff (remapTraits exCnf exShapeBad)
        (remapTraits exCnf exArr) exTrain) ∧
    remapTraits exCnf
        (exShapeBad.filter (fun p => (dictGet exCnf p.1).isSome)) =
      remapTraits exCnf exShapeBad ∧
    remapTraits exCnf (exArr.filter (fun p => (dictGet exCnf p.1).isSome)) =
      remapTraits exCnf exArr :=
  C3_amended_unresolved_keys_dropped '/' exSpecies exTrain exShapeBad exArr
    exCff exCnf rfl

/-- Claim C4: trait remapping translates each clean-name-keyed trait
dictionary into a formal-name-keyed one via the clean-name map, silently
dropping entries whose clean name is unmatched (removing them changes
nothing), while every matched entry lands under its formal name; the
traits are then left-joined onto the rows by formal species name, a
missing entry yielding null. -/
theorem C4_trait_remap_left_join (sep : Char) (lines : List String)
    (train : List TrainRow) (shape arr : Dict String String)
    (cff : Dict Int String) (cnf : Dict String String) (out : List OutRow)
    (i : Nat) (t : TrainRow) (r : OutRow) (ck v f : String)
    (hps : parseSpeciesList lines [] [] = .ok (cff, cnf))
    (hrun : load_and_map_data sep (some lines) (some train) (some shape)
      (some arr) = .success out)
    (ht : train[i]? = some t) (hr : out[i]? = some r)
    (hckv : (ck, v) ∈ shape) (hcf : dictGet cnf ck = some f) :
    remapTraits cnf (shape.filter (fun p => (dictGet cnf p.1).isSome)) =
      remapTraits cnf shape ∧
    f ∈ dictKeys (remapTraits cnf shape) ∧
    r.leaf_shape = r.species_name.bind (dictGet (remapTraits cnf shape)) ∧
    r.leaf_arrangement =
      r.species_name.bind (dictGet (remapTraits cnf arr)) := by
  have h2 := (run_success_eq sep lines train shape arr cff cnf hps).symm.trans
    hrun
  injection h2 with h3
  rw [← h3, buildRows_getElem?, ht, Option.map_some'] at hr
  have hr' := Option.some.inj hr
  subst hr'
  refine ⟨remapTraits_filter_resolved cnf shape,
    (mem_dictKeys_remapTraits cnf shape f).2 ⟨ck, v, hckv, hcf⟩, ?_, ?_⟩
  · simp
  · simp

/-- Witness for C4 at row 0 of the example run, with the trait entry for
"Acer rubrum". -/
theorem C4_witness :
    remapTraits exCnf
        (exShape.filter (fun p => (dictGet exCnf p.1).isSome)) =
      remapTraits exCnf exShape ∧
    "Acer rubrum L." ∈ dictKeys (remapTraits exCnf exShape) ∧
    exRow0.leaf_shape =
      exRow0.species_name.bind (dictGet (remapTraits exCnf exShape)) ∧
    exRow0.leaf_arrangement =
      exRow0.species_name.bind (dictGet (remapTraits exCnf exArr)) :=
  C4_trait_remap_left_join '/' exSpecies exTrain exShape exArr exCff exCnf
    exOut 0 ⟨"train/herbarium/105951/img1.jpg", 105951⟩ exRow0
    "Acer rubrum" "lobed" "Acer rubrum L." rfl rfl rfl (by decide)
    (by decide) rfl

/-- Claim C5: the run succeeds for any manifest; for every manifest row,
species_name equals the formal name recorded for its classid when that
classid is in the species list, and is null otherwise; an absent classid
neither aborts the run nor drops the row (the output keeps one row per
manifest record). -/
theorem C5_species_name_left_join (sep : Char) (lines : List String)
    (train : List TrainRow) (shape arr : Dict String String)
    (cff : Dict Int String) (cnf : Dict String String) (i : Nat)
    (t : TrainRow) (r : OutRow)
    (hps : parseSpeciesList lines [] [] = .ok (cff, cnf))
    (ht : train[i]? = some t)
    (hr : (buildRows sep cff (remapTraits cnf shape) (remapTraits cnf arr)
      train)[i]? = some r) :
    load_and_map_data sep (some lines) (some train) (some shape)
      (some arr) =
      .success (buildRows sep cff (remapTraits cnf shape)
        (remapTraits cnf arr) train) ∧
    (buildRows sep cff (remapTraits cnf shape) (remapTraits cnf arr)
      train).length = train.length ∧
    r.species_name = dictGet cff t.classid ∧
    (t.classid ∉ dictKeys cff → r.species_name = none) := by
  rw [buildRows_getElem?, ht, Option.map_some'] at hr
  have hr' := Option.some.inj hr
  subst hr'
  refine ⟨run_success_eq sep lines train shape arr cff cnf hps,
    buildRows_length sep cff _ _ train, by simp, ?_⟩
  intro hnm
  simp only [addLabels_species_name, enrichRow_species_name]
  exact (dictGet_eq_none_iff cff t.classid).2 hnm

/-- Witness for C5 at row 2 of the example run, whose classid 999 is not
in the species list. -/
theorem C5_witness :
    load_and_map_data '/' (some exSpecies) (some exTrain) (some exShape)
      (some exArr) =
      .success (buildRows '/' exCff (remapTraits exCnf exShape)
        (remapTraits exCnf exArr) exTrain) ∧
    (buildRows '/' exCff (remapTraits exCnf exShape)
      (remapTraits exCnf exArr) exTrain).length = exTrain.length ∧
    exRow2.species_name = dictGet exCff (999 : Int) ∧
    ((999 : Int) ∉ dictKeys exCff → exRow2.species_name = none) :=
  C5_species_name_left_join '/' exSpecies exTrain exShape exArr exCff exCnf
    2 ⟨"train/field/999/img3.jpg", 999⟩ exRow2 rfl rfl (by decide)

/-- Claim C6: every enrichment step preserves the row set: the output has
exactly one row per manifest record, and a species whose trait entry is
missing gets null in the leaf_shape or leaf_arrangement column of its row
instead of having the row removed. -/
theorem C6_row_set_preserved_null_traits (sep : Char) (lines : List String)
    (train : List TrainRow) (shape arr : Dict String String)
    (cff : Dict Int String) (cnf : Dict String String) (i : Nat)
    (t : TrainRow) (r : OutRow) (s : String)
    (hps : parseSpeciesList lines [] [] = .ok (cff, cnf))
    (ht : train[i]? = some t)
    (hr : (buildRows sep cff (remapTraits cnf shape) (remapTraits cnf arr)
      train)[i]? = some r)
    (hs : r.species_name = some s) :
    load_and_map_data sep (some lines) (some train) (some shape)
      (some arr) =
      .success (buildRows sep cff (remapTraits cnf shape)
        (remapTraits cnf arr) train) ∧
    (buildRows sep cff (remapTraits cnf shape) (remapTraits cnf arr)
      train).length = train.length ∧
    (dictGet (remapTraits cnf shape) s = none → r.leaf_shape = none) ∧
    (dictGet (remapTraits cnf arr) s = none →
      r.leaf_arrangement = none) := by
  rw [buildRows_getElem?, ht, Option.map_some'] at hr
  have hr' := Option.some.inj hr
  subst hr'
  simp only [addLabels_species_name, enrichRow_species_name] at hs
  refine ⟨run_success_eq sep lines train shape arr cff cnf hps,
    buildRows_length sep cff _ _ train, ?_, ?_⟩
  · intro hmiss
    simp only [addLabels_leaf_shape, enrichRow_leaf_shape, hs,
      Option.some_bind]
    exact hmiss
  · intro hmiss
    simp only [addLabels_leaf_arrangement, enrichRow_leaf_arrangement, hs,
      Option.some_bind]
    exact hmiss

/-- Witness for C6 at row 1 of the run with the one-species trait files:
the species of the row has no trait entry, and the row is present with
null traits. -/
theorem C6_witness :
    load_and_map_data '/' (some exSpecies) (some exTrain)
      (some exShapeSmall) (some exArrSmall) =
      .success (buildRows '/' exCff (remapTraits exCnf exShapeSmall)
        (remapTraits exCnf exArrSmall) exTrain) ∧
    (buildRows '/' exCff (remapTraits exCnf exShapeSmall)
      (remapTraits exCnf exArrSmall) exTrain).length = exTrain.length ∧
    (dictGet (remapTraits exCnf exShapeSmall) "Quercus alba Mill." = none →
      exRowSmall1.leaf_shape = none) ∧
    (dictGet (remapTraits exCnf exArrSmall) "Quercus alba Mill." = none →
      exRowSmall1.leaf_arrangement = none) :=
  C6_row_set_preserved_null_traits '/' exSpecies exTrain exShapeSmall
    exArrSmall exCff exCnf 1 ⟨"train/field/2/img2.jpg", 2⟩ exRowSmall1
    "Quercus alba Mill." rfl rfl (by decide) rfl

/-- Claim C7: two runs on identical input files produce identical outputs,
and the integer codes of species_label, leaf_shape_label and
leaf_arrangement_label are assigned in lexicographic order of the
category values: for any two rows with non-null values, the value of the
first row precedes the value of the second lexicographically iff its code
is smaller. -/
theorem C7_deterministic_lexicographic_labels (sep : Char)
    (lines : List String) (train : List TrainRow)
    (shape arr : Dict String String) (cff : Dict Int String)
    (cnf : Dict String String) (out out' : List OutRow) (i j : Nat)
    (ri rj : OutRow) (a b c d e g : String)
    (hps : parseSpeciesList lines [] [] = .ok (cff, cnf))
    (hrun : load_and_map_data sep (some lines) (some train) (some shape)
      (some arr) = .success out)
    (hrun' : load_and_map_data sep (some lines) (some train) (some shape)
      (some arr) = .success out')
    (hri : out[i]? = some ri) (hrj : out[j]? = some rj)
    (hsa : ri.species_name = some a) (hsb : rj.species_name = some b)
    (hsc : ri.leaf_shape = some c) (hsd : rj.leaf_shape = some d)
    (hse : ri.leaf_arrangement = some e)
    (hsg : rj.leaf_arrangement = some g) :
    out = out' ∧
    (strLt a b ↔ ri.species_label < rj.species_label) ∧
    (strLt c d ↔ ri.leaf_shape_label < rj.leaf_shape_label) ∧
    (strLt e g ↔ ri.leaf_arrangement_label < rj.leaf_arrangement_label) := by
  have hdet : out = out' := by
    have h0 := hrun.symm.trans hrun'
    injection h0
  have h2 := (run_success_eq sep lines train shape arr cff cnf hps).symm.trans
    hrun
  injection h2 with h3
  rw [← h3, buildRows_getElem?] at hri hrj
  rcases hti : train[i]? with _ | ti
  · rw [hti] at hri
    cases hri
  rcases htj : train[j]? with _ | tj
  · rw [htj] at hrj
    cases hrj
  rw [hti, Option.map_some'] at hri
  rw [htj, Option.map_some'] at hrj
  have hri' := Option.some.inj hri
  have hrj' := Option.some.inj hrj
  subst hri'
  subst hrj'
  simp only [addLabels_species_name, enrichRow_species_name] at hsa hsb
  simp only [addLabels_leaf_shape, enrichRow_leaf_shape] at hsc hsd
  simp only [addLabels_leaf_arrangement, enrichRow_leaf_arrangement]
    at hse hsg
  refine ⟨hdet, ?_, ?_, ?_⟩
  · have hmi := mem_speciesCol_of_getElem? sep cff (remapTraits cnf shape)
      (remapTraits cnf arr) train i ti hti
    have hmj := mem_speciesCol_of_getElem? sep cff (remapTraits cnf shape)
      (remapTraits cnf arr) train j tj htj
    rw [hsa] at hmi
    rw [hsb] at hmj
    simp only [addLabels_species_label, enrichRow_species_name, hsa, hsb]
    exact catCode_lt_iff _ hmi hmj
  · have hmi := mem_shapeCol_of_getElem? sep cff (remapTraits cnf shape)
      (remapTraits cnf arr) train i ti hti
    have hmj := mem_shapeCol_of_getElem? sep cff (remapTraits cnf shape)
      (remapTraits cnf arr) train j tj htj
    rw [hsc] at hmi
    rw [hsd] at hmj
    simp only [addLabels_leaf_shape_label, enrichRow_leaf_shape, hsc, hsd]
    exact catCode_lt_iff _ hmi hmj
  · have hmi := mem_arrCol_of_getElem? sep cff (remapTraits cnf shape)
      (remapTraits cnf arr) train i ti hti
    have hmj := mem_arrCol_of_getElem? sep cff (remapTraits cnf shape)
      (remapTraits cnf arr) train j tj htj
    rw [hse] at hmi
    rw [hsg] at hmj
    simp only [addLabels_leaf_arrangement_label, enrichRow_leaf_arrangement,
      hse, hsg]
    exact catCode_lt_iff _ hmi hmj

/-- Witness for C7 at rows 0 and 1 of the example run: the shape value
"entire" of row 1 precedes the shape value "lobed" of row 0, and the codes
follow that order, not the row order. -/
theorem C7_witness :
    exOut = exOut ∧
    (strLt "Acer rubrum L." "Quercus alba Mill." ↔
      exRow0.species_label < exRow1.species_label) ∧
    (strLt "lobed" "entire" ↔
      exRow0.leaf_shape_label < exRow1.leaf_shape_label) ∧
    (strLt "opposite" "alternate" ↔
      exRow0.leaf_arrangement_label < exRow1.leaf_arrangement_label) :=
  C7_deterministic_lexicographic_labels '/' exSpecies exTrain exShape exArr
    exCff exCnf exOut exOut 0 1 exRow0 exRow1 "Acer rubrum L."
    "Quercus alba Mill." "lobed" "entire" "opposite" "alternate" rfl rfl
    rfl (by decide) (by decide) rfl rfl rfl rfl rfl rfl

/-- Claim C8: a missing trait-mapping file is caught and reported, and the
run returns without writing any output (no partial output); a malformed
species-list line, a missing species list or a missing manifest propagate
as unhandled errors that terminate the process. -/
theorem C8_error_handling (sep : Char) (lines badLines : List String)
    (train : List TrainRow) (shape arr : Dict String String)
    (cff : Dict Int String) (cnf : Dict String String)
    (hps : parseSpeciesList lines [] [] = .ok (cff, cnf))
    (hbad : badLines.all validSpeciesLine = false) :
    (load_and_map_data sep (some lines) (some train) none (some arr) =
        .handledAbort "ERROR: A descriptor file was not found" ∧
      (load_and_map_data sep (some lines) (some train) none
        (some arr)).output? = none) ∧
    (load_and_map_data sep (some lines) (some train) (some shape) none =
        .handledAbort "ERROR: A descriptor file was not found" ∧
      (load_and_map_data sep (some lines) (some train) (some shape)
        none).output? = none) ∧
    load_and_map_data sep (some badLines) (some train) (some shape)
      (some arr) = .unhandled "ValueError" ∧
    load_and_map_data sep none (some train) (some shape) (some arr) =
      .unhandled "FileNotFoundError: species_list.txt" ∧
    load_and_map_data sep (some lines) none (some shape) (some arr) =
      .unhandled "FileNotFoundError: train.txt" := by
  have habort1 : load_and_map_data sep (some lines) (some train) none
      (some arr) =
      .handledAbort "ERROR: A descriptor file was not found" := by
    simp only [load_and_map_data, hps]
  have habort2 : load_and_map_data sep (some lines) (some train)
      (some shape) none =
      .handledAbort "ERROR: A descriptor file was not found" := by
    simp only [load_and_map_data, hps]
  have herr := parseSpeciesList_error_of_invalid badLines [] [] hbad
  refine ⟨⟨habort1, by rw [habort1]; rfl⟩, ⟨habort2, by rw [habort2]; rfl⟩,
    ?_, rfl, ?_⟩
  · simp only [load_and_map_data, herr]
  · simp only [load_and_map_data, hps]

/-- Witness for C8 on the example inputs, with the malformed species list
`exBadSpecies`. -/
theorem C8_witness :
    (load_and_map_data '/' (some exSpecies) (some exTrain) none
        (some exArr) =
        .handledAbort "ERROR: A descriptor file was not found" ∧
      (load_and_map_data '/' (some exSpecies) (some exTrain) none
        (some exArr)).output? = none) ∧
    (load_and_map_data '/' (some exSpecies) (some exTrain) (some exShape)
        none = .handledAbort "ERROR: A descriptor file was not found" ∧
      (load_and_map_data '/' (some exSpecies) (some exTrain)
        (some exShape) none).output? = none) ∧
    load_and_map_data '/' (some exBadSpecies) (some exTrain) (some exShape)
      (some exArr) = .unhandled "ValueError" ∧
    load_and_map_data '/' none (some exTrain) (some exShape) (some exArr) =
      .unhandled "FileNotFoundError: species_list.txt" ∧
    load_and_map_data '/' (some exSpecies) none (some exShape)
      (some exArr) = .unhandled "FileNotFoundError: train.txt" :=
  C8_error_handling '/' exSpecies exBadSpecies exTrain exShape exArr exCff
    exCnf rfl rfl

/-- Claim C9: in every output row, a null species_name, leaf_shape or
leaf_arrangement yields -1 in the corresponding integer label column, and
every non-null value receives a non-negative code. -/
theorem C9_null_labels_minus_one (sep : Char) (cff : Dict Int String)
    (shapeM arrM : Dict String String) (train : List TrainRow) (i : Nat)
    (r : OutRow)
    (hr : (buildRows sep cff shapeM arrM train)[i]? = some r) :
    (r.species_name = none → r.species_label = -1) ∧
    (r.species_name ≠ none → 0 ≤ r.species_label) ∧
    (r.leaf_shape = none → r.leaf_shape_label = -1) ∧
    (r.leaf_shape ≠ none → 0 ≤ r.leaf_shape_label) ∧
    (r.leaf_arrangement = none → r.leaf_arrangement_label = -1) ∧
    (r.leaf_arrangement ≠ none → 0 ≤ r.leaf_arrangement_label) := by
  rw [buildRows_getElem?] at hr
  rcases hti : train[i]? with _ | t
  · rw [hti] at hr
    cases hr
  rw [hti, Option.map_some'] at hr
  have hr' := Option.some.inj hr
  subst hr'
  refine ⟨?_, ?_, ?_, ?_, ?_, ?_⟩
  · intro h
    rw [addLabels_species_name] at h
    rw [addLabels_species_label, h]
    rfl
  · intro h
    rw [addLabels_species_name] at h
    rw [addLabels_species_label]
    exact catCode_nonneg _ _ h
  · intro h
    rw [addLabels_leaf_shape] at h
    rw [addLabels_leaf_shape_label, h]
    rfl
  · intro h
    rw [addLabels_leaf_shape] at h
    rw [addLabels_leaf_shape_label]
    exact catCode_nonneg _ _ h
  · intro h
    rw [addLabels_leaf_arrangement] at h
    rw [addLabels_leaf_arrangement_label, h]
    rfl
  · intro h
    rw [addLabels_leaf_arrangement] at h
    rw [addLabels_leaf_arrangement_label]
    exact catCode_nonneg _ _ h

/-- Witness for C9 at row 2 of the example run, where all three values are
null and all three labels are -1. -/
theorem C9_witness :
    (exRow2.species_name = none → exRow2.species_label = -1) ∧
    (exRow2.species_name ≠ none → 0 ≤ exRow2.species_label) ∧
    (exRow2.leaf_shape = none → exRow2.leaf_shape_label = -1) ∧
    (exRow2.leaf_shape ≠ none → 0 ≤ exRow2.leaf_shape_label) ∧
    (exRow2.leaf_arrangement = none →
      exRow2.leaf_arrangement_label = -1) ∧
    (exRow2.leaf_arrangement ≠ none →
      0 ≤ exRow2.leaf_arrangement_label) :=
  C9_null_labels_minus_one '/' exCff (remapTraits exCnf exShape)
    (remapTraits exCnf exArr) exTrain 2 exRow2 (by decide)

/-- Claim C10: the filepath column is rewritten in place before domain
derivation and output: the filepath of every output row equals the
manifest filepath with every slash replaced by the OS path separator, the
domain is derived from that rewritten path, and the classid column loaded
from the manifest is unmodified. -/
theorem C10_filepath_rewrite_frame (sep : Char) (cff : Dict Int String)
    (shapeM arrM : Dict String String) (train : List TrainRow) (i : Nat)
    (t : TrainRow) (r : OutRow)
    (ht : train[i]? = some t)
    (hr : (buildRows sep cff shapeM arrM train)[i]? = some r) :
    r.filepath = replaceSep sep t.filepath ∧
    r.classid = t.classid ∧
    r.domain = domainOf (replaceSep sep t.filepath) ∧
    (buildRows sep cff shapeM arrM train).length = train.length := by
  rw [buildRows_getElem?, ht, Option.map_some'] at hr
  have hr' := Option.some.inj hr
  subst hr'
  exact ⟨rfl, rfl, rfl, buildRows_length sep cff shapeM arrM train⟩

/-- Witness for C10 at row 0 with the Windows path separator: the slashes
of the manifest path become backslashes in the output. -/
theorem C10_witness :
    exRow0W.filepath =
      replaceSep '\\' "train/herbarium/105951/img1.jpg" ∧
    exRow0W.classid = (105951 : Int) ∧
    exRow0W.domain =
      domainOf (replaceSep '\\' "train/herbarium/105951/img1.jpg") ∧
    (buildRows '\\' exCff (remapTraits exCnf exShape)
      (remapTraits exCnf exArr) exTrain).length = exTrain.length :=
  C10_filepath_rewrite_frame '\\' exCff (remapTraits exCnf exShape)
    (remapTraits exCnf exArr) exTrain 0
    ⟨"train/herbarium/105951/img1.jpg", 105951⟩ exRow0W rfl (by decide)

end PrepareVisualMetadata
